import Mathlib

/-!
Verification of the yourcast news-podcast pipeline against its specification.

The definitions below are shallow embeddings of the Python source:
* `smart_article_service.py` — candidate scoring (SQL query) and the
  three-phase article selection;
* `transcript_service.py` — forced-timing transcript segments;
* `tts_service.py` — cumulative chunk timestamps;
* `podcast_generator.py` / `http_worker.py` — pipeline status writes;
* `clustering_service.py` — judge-reply parsing;
* `adk_agents.py` — topic grouping and script assembly.

Machine reals from the source are modelled as `ℚ` (time, scores) except where
the source computes transcendental functions (`EXP`, `LOG` in SQL), which are
modelled over `ℝ`.
-/

/- ### String helpers (Python `str.lower`, substring search, `str.split`) -/

/-- Lower-cased character list of a string (Python `s.lower()` restricted to
ASCII case folding, which is all the source compares). -/
def lowerChars (s : String) : List Char := s.data.map Char.toLower

/-- Case-insensitive equality of strings, Python `a.lower() == b.lower()`. -/
def lowerEq (a b : String) : Bool := lowerChars a == lowerChars b

/-- Whether `needle` occurs as a contiguous sublist of `hay`. -/
def listContainsSub (needle hay : List Char) : Bool :=
  hay.tails.any (fun t => needle.isPrefixOf t)

/-- Case-insensitive phrase containment: the needle occurs in the haystack up
to letter case. -/
def containsPhraseCI (hay needle : String) : Bool :=
  listContainsSub (lowerChars needle) (lowerChars hay)

/-- Split on whitespace runs, dropping empty pieces — Python `str.split()`.
The accumulator holds the current word reversed. -/
def splitWsAux : List Char → List Char → List (List Char)
  | [], acc => if acc.isEmpty then [] else [acc.reverse]
  | c :: rest, acc =>
    if c.isWhitespace then
      if acc.isEmpty then splitWsAux rest [] else acc.reverse :: splitWsAux rest []
    else splitWsAux rest (c :: acc)

/-- Number of whitespace-separated words, Python `len(text.split())`. -/
def pyWordCount (s : String) : ℕ := (splitWsAux s.data []).length

/- ### Article selection — `smart_article_service.get_articles_by_subcategories`

An eligible candidate row as it comes back from the SQL query (one row per
cluster, already filtered of heard clusters): the fields the Python selection
phases read. `combined` is the `combined_score` column computed by the
database; the Python code never recomputes it. -/

structure SelArticle where
  articleId : ℕ
  clusterId : ℕ
  subcategory : Option String
  tags : List String
  importance : ℚ
  combined : ℚ
deriving DecidableEq, Repr

/-- Ordering used for the stable descending Python sort on combined score:
`x` may come before `y` iff the combined score of `y` is not larger. -/
def combGE (x y : SelArticle) : Prop := y.combined ≤ x.combined

instance : DecidableRel combGE := fun x y => inferInstanceAs (Decidable (y.combined ≤ x.combined))

instance : IsTotal SelArticle combGE := ⟨fun a b => le_total b.combined a.combined⟩

instance : IsTrans SelArticle combGE := ⟨fun _ _ _ h1 h2 => le_trans h2 h1⟩

/-- Stable descending sort by combined score (Python `list.sort` is stable;
insertion sort with this relation has the same output). -/
def sortByCombinedDesc (l : List SelArticle) : List SelArticle :=
  List.insertionSort combGE l

/-- Ordering for the final stable descending Python sort on importance score. -/
def impGE (x y : SelArticle) : Prop := y.importance ≤ x.importance

instance : DecidableRel impGE := fun x y => inferInstanceAs (Decidable (y.importance ≤ x.importance))

/-- Stable descending sort by importance score. -/
def sortByImportanceDesc (l : List SelArticle) : List SelArticle :=
  List.insertionSort impGE l

/-- The seven `world_news_subcats` of the selector. -/
def worldNewsSubcats : List String :=
  ["Africa", "Asia", "Europe", "Middle East", "North America", "South America", "Oceania"]

/-- `articles_by_subcat[s]`: the eligible articles of subcategory `s`, sorted
by combined score descending (the code groups, then sorts each group). -/
def subcatGroup (eligible : List SelArticle) (s : String) : List SelArticle :=
  sortByCombinedDesc (eligible.filter (fun a => a.subcategory == some s))

/-- Running selection state: `articles` list and `selected_cluster_ids` set. -/
structure SelSt where
  chosen : List SelArticle
  selectedClusters : List ℕ
deriving DecidableEq, Repr

/-- Append one article and record its cluster as selected. -/
def selAdd (st : SelSt) (a : SelArticle) : SelSt :=
  ⟨st.chosen ++ [a], st.selectedClusters ++ [a.clusterId]⟩

/-- Phase 1, custom tags: for one tag, pick the highest-combined unselected
article one of whose tags equals the tag case-insensitively. -/
def phase1TagStep (eligible : List SelArticle) (st : SelSt) (tag : String) : SelSt :=
  let allTagMatches := eligible.filter (fun a => a.tags.any (fun t => lowerEq t tag))
  let tagArticles := allTagMatches.filter (fun a => !(st.selectedClusters.contains a.clusterId))
  match sortByCombinedDesc tagArticles with
  | [] => st
  | best :: _ => selAdd st best

/-- Phase 1, World News: if any world-news region was requested, take the two
highest-combined unselected articles from the union of the requested regions. -/
def phase1WorldNews (eligible : List SelArticle) (selectedSubcategories : List String)
    (st : SelSt) : SelSt :=
  let wnSelected := selectedSubcategories.filter (fun s => worldNewsSubcats.contains s)
  if wnSelected.isEmpty then st
  else
    let wnArticles := wnSelected.foldl (fun acc s => acc ++ subcatGroup eligible s) []
    let unselected := wnArticles.filter (fun a => !(st.selectedClusters.contains a.clusterId))
    ((sortByCombinedDesc unselected).take 2).foldl selAdd st

/-- Phase 2a, one subcategory: if the subcategory has any eligible article,
walk its group in combined-score order and add the first article whose cluster
is not yet selected (the code does not test whether the subcategory is already
represented among the chosen articles). -/
def phase2aStep (eligible : List SelArticle) (st : SelSt) (subcategory : String) : SelSt :=
  if (eligible.filter (fun a => a.subcategory == some subcategory)).isEmpty then st
  else
    match (subcatGroup eligible subcategory).find?
        (fun a => !(st.selectedClusters.contains a.clusterId)) with
    | none => st
    | some a => selAdd st a

/-- Phase 2b: fill remaining slots (if any) with the best unselected articles
from all sources. -/
def phase2b (eligible : List SelArticle) (totalArticles : ℕ) (st : SelSt) : SelSt :=
  let remainingSlots : ℤ := (totalArticles : ℤ) - st.chosen.length
  if 0 < remainingSlots then
    let unselected := eligible.filter (fun a => !(st.selectedClusters.contains a.clusterId))
    ((sortByCombinedDesc unselected).take remainingSlots.toNat).foldl selAdd st
  else st

/-- The three-phase selection of `get_articles_by_subcategories`, starting from
the eligible candidate rows (post SQL filter and heard-cluster removal). -/
def getArticlesBySubcategories (eligible : List SelArticle)
    (selectedSubcategories customTags : List String) (totalArticles : ℕ) : List SelArticle :=
  if selectedSubcategories.isEmpty && customTags.isEmpty then []
  else if eligible.isEmpty then []
  else
    let st1 := customTags.foldl (phase1TagStep eligible) ⟨[], []⟩
    let st2 := phase1WorldNews eligible selectedSubcategories st1
    let nonWorldNews := selectedSubcategories.filter (fun s => !(worldNewsSubcats.contains s))
    let st3 := nonWorldNews.foldl (phase2aStep eligible) st2
    let st4 := phase2b eligible totalArticles st3
    sortByImportanceDesc st4.chosen

/- ### Candidate scoring — the SQL query of `get_articles_by_subcategories`

One candidate row as seen by the query, before the `combined_score` column is
computed. Timestamps are epoch seconds. -/

structure SqlRow where
  clusterId : ℕ
  importance : ℚ
  articleCount : ℕ
  category : String
  subcategory : Option String
  tags : List String
  publicationTs : Option ℚ
  createdAt : ℚ
deriving DecidableEq, Repr

/-- `COVERAGE_BOOST_MULTIPLIER = 17`. -/
def COVERAGE_BOOST_MULTIPLIER : ℚ := 17

/-- `ARTICLE_FRESHNESS_DAYS = 5`. -/
def ARTICLE_FRESHNESS_DAYS : ℕ := 5

/-- The `CASE a.category WHEN ... END` expression of the query, whose branches
are bound to the `TIME_DECAY_RATES` dictionary (decay per hour). -/
def TIME_DECAY_RATES (c : String) : ℚ :=
  if c = "World News" then 1/20
  else if c = "Politics & Government" then 1/50
  else if c = "Business" then 1/40
  else if c = "Technology" then 1/100
  else if c = "Science & Environment" then 1/200
  else if c = "Sports" then 3/100
  else if c = "Arts & Culture" then 1/200
  else if c = "Health" then 1/125
  else if c = "Lifestyle" then 1/200
  else 1/50

/-- `COALESCE(a.publication_timestamp, a.created_at)`. -/
def effectiveTs (r : SqlRow) : ℚ := r.publicationTs.getD r.createdAt

/-- `EXTRACT(EPOCH FROM (NOW() - COALESCE(...))) / 3600`: age in hours at
query time `now`. -/
def ageHours (r : SqlRow) (now : ℚ) : ℚ := (now - effectiveTs r) / 3600

/-- The `combined_score` column:
`(importance + boost * LOG(GREATEST(count, 1))) * EXP(-age_hours * rate)`.
PostgreSQL single-argument `LOG` is the base-10 logarithm. -/
noncomputable def sqlCombinedScore (r : SqlRow) (now : ℚ) : ℝ :=
  ((r.importance : ℝ) + (COVERAGE_BOOST_MULTIPLIER : ℝ)
      * Real.logb 10 (max (r.articleCount : ℝ) 1))
    * Real.exp (-(ageHours r now : ℝ) * (TIME_DECAY_RATES r.category : ℝ))

/-- `cutoff_date = datetime.now() - timedelta(days=ARTICLE_FRESHNESS_DAYS)`,
computed before the query and passed as a parameter. -/
def freshnessCutoff (now : ℚ) : ℚ := now - (ARTICLE_FRESHNESS_DAYS : ℚ) * 86400

/-- The `WHERE` clause of the query: subcategory match (or, when custom tags
were supplied, a case-insensitive tag match), minimum cluster importance, and
publication-or-created at or after the cutoff date. -/
def eligibleRow (selectedSubcategories customTags : List String)
    (minImportance cutoff : ℚ) (r : SqlRow) : Bool :=
  let subcatMatch := match r.subcategory with
    | some s => selectedSubcategories.contains s
    | none => false
  let tagMatch := r.tags.any (fun t => customTags.any (fun u => lowerEq t u))
  (subcatMatch || (!customTags.isEmpty && tagMatch))
    && minImportance ≤ r.importance
    && cutoff ≤ effectiveTs r

/-- The per-category decay-rate table exactly as the claim lists it:
World News 0.05, Politics & Government 0.02, Business 0.025, Technology 0.01,
Science & Environment 0.005, Sports 0.03, Arts & Culture 0.005, Health 0.008,
Lifestyle 0.005, default 0.02. -/
def claimDecayRate (c : String) : ℚ :=
  if c = "World News" then 1/20
  else if c = "Politics & Government" then 1/50
  else if c = "Business" then 1/40
  else if c = "Technology" then 1/100
  else if c = "Science & Environment" then 1/200
  else if c = "Sports" then 3/100
  else if c = "Arts & Culture" then 1/200
  else if c = "Health" then 1/125
  else if c = "Lifestyle" then 1/200
  else 1/50

/-- The formula of the claim
`(importance + 17 * log(max(article_count, 1))) * exp(-age_hours * decay_rate[category])`
with `log` the same base-10 logarithm the source database computes. -/
noncomputable def claimCombinedScore (importance : ℚ) (articleCount : ℕ)
    (ageH : ℚ) (category : String) : ℝ :=
  ((importance : ℝ) + 17 * Real.logb 10 (max (articleCount : ℝ) 1))
    * Real.exp (-(ageH : ℝ) * (claimDecayRate category : ℝ))

/- ### Forced-timing transcript — `transcript_service._create_segments_from_tts_timestamps` -/

/-- One word-level timestamp entry from the TTS provider. -/
structure TWord where
  text : String
  start : ℚ
  stop : ℚ
deriving DecidableEq, Repr

/-- One chunk-timestamp dictionary handed to the transcript service.
`duration` is optional because the code reads it through a dict get with a
word-rate estimate as default; `words` defaults to the empty list. -/
structure TChunk where
  paragraphIndex : ℕ
  paragraphText : String
  words : List TWord
  duration : Option ℚ
  topic : String
deriving DecidableEq, Repr

/-- One paragraph of the assembled script (`script.paragraphs[i]`). -/
structure Para where
  text : String
  sourceIds : List ℕ
  topic : String
deriving DecidableEq, Repr

/-- One transcript segment; `words` is present only when the provider gave
word timestamps. -/
structure TSeg where
  start : ℚ
  stop : ℚ
  text : String
  topic : String
  sourceIds : List ℕ
  words : Option (List TWord)
deriving DecidableEq, Repr

/-- The fallback duration estimate `len(paragraph_text.split()) / 2.67`. -/
def estimatedChunkDuration (text : String) : ℚ := (pyWordCount text : ℚ) / (267/100)

/-- The dict get of the chunk duration, defaulting to the word count of the
paragraph text over 2.67 words per second. -/
def chunkDuration (c : TChunk) : ℚ := c.duration.getD (estimatedChunkDuration c.paragraphText)

/-- Topics skipped by the transcript (`topic in ["Introduction", "Outro"]`). -/
def isFraming (topic : String) : Bool := topic == "Introduction" || topic == "Outro"

/-- `script.paragraphs[i]["source_ids"] if i < len(script.paragraphs) else []`. -/
def sourceIdsAt (script : List Para) (i : ℕ) : List ℕ :=
  match script.get? i with
  | some p => p.sourceIds
  | none => []

/-- Direct translation of `_create_segments_from_tts_timestamps`, with the
running `current_audio_time` as the explicit accumulator `t`. -/
def createSegmentsFromTTS (script : List Para) : List TChunk → ℚ → List TSeg
  | [], _ => []
  | chunk :: rest, t =>
    if isFraming chunk.topic then
      let d := match chunk.words with
        | [] => chunkDuration chunk
        | w :: ws => ((w :: ws).getLast (List.cons_ne_nil w ws)).stop
      createSegmentsFromTTS script rest (t + d + 1/4)
    else
      match chunk.words with
      | [] =>
        let d := chunkDuration chunk
        { start := t, stop := t + d, text := chunk.paragraphText, topic := chunk.topic,
          sourceIds := sourceIdsAt script chunk.paragraphIndex, words := none }
          :: createSegmentsFromTTS script rest (t + d)
      | w :: ws =>
        let lastEnd := ((w :: ws).getLast (List.cons_ne_nil w ws)).stop
        { start := t + w.start, stop := t + lastEnd, text := chunk.paragraphText,
          topic := chunk.topic, sourceIds := sourceIdsAt script chunk.paragraphIndex,
          words := some ((w :: ws).map (fun u => ⟨u.text, t + u.start, t + u.stop⟩)) }
          :: createSegmentsFromTTS script rest (t + lastEnd + 1/4)

/-- How much one chunk advances the transcript clock: framing chunks advance
by their audio length plus a 250 ms pause; non-framing chunks advance by the
last word end plus 250 ms when word timestamps exist, else by the bare chunk
duration. -/
def chunkAdvance (c : TChunk) : ℚ :=
  if isFraming c.topic then
    (match c.words with
      | [] => chunkDuration c
      | w :: ws => ((w :: ws).getLast (List.cons_ne_nil w ws)).stop) + 1/4
  else
    match c.words with
    | [] => chunkDuration c
    | w :: ws => ((w :: ws).getLast (List.cons_ne_nil w ws)).stop + 1/4

/-- Each chunk paired with its cumulative clock offset, starting at `t`. -/
def offsetsFrom (t : ℚ) : List TChunk → List (ℚ × TChunk)
  | [] => []
  | c :: rest => (t, c) :: offsetsFrom (t + chunkAdvance c) rest

/-- The segment a non-framing chunk yields at clock offset `t`. -/
def segOfChunkAt (script : List Para) (t : ℚ) (c : TChunk) : TSeg :=
  match c.words with
  | [] =>
    { start := t, stop := t + chunkDuration c, text := c.paragraphText, topic := c.topic,
      sourceIds := sourceIdsAt script c.paragraphIndex, words := none }
  | w :: ws =>
    { start := t + w.start, stop := t + ((w :: ws).getLast (List.cons_ne_nil w ws)).stop,
      text := c.paragraphText, topic := c.topic,
      sourceIds := sourceIdsAt script c.paragraphIndex,
      words := some ((w :: ws).map (fun u => ⟨u.text, t + u.start, t + u.stop⟩)) }

/-- The offset convention of the claim: sum of the durations of chunks `0..k-1`
minus 50 ms per inter-chunk boundary. -/
def claimedCrossfadeOffset (cs : List TChunk) (k : ℕ) : ℚ :=
  ((cs.take k).map chunkDuration).sum - (1/20) * k

/- ### TTS cumulative chunk timestamps — `tts_service.generate_audio_chunks`

The per-chunk `start_time`/`end_time` computed when the ordered chunk list is
built: cumulative duration, subtracting the 50 ms crossfade overlap for every
chunk after the first. -/

/-- Start times of the audio chunks as `generate_audio_chunks` computes them
from the chunk durations (first chunk adds its full duration, later chunks
add duration minus 50 ms). -/
def ttsStartTimes (durations : List ℚ) : List ℚ :=
  (durations.foldl
    (fun (acc : List ℚ × ℚ × Bool) d =>
      let t := acc.2.1
      (acc.1 ++ [t], t + d - (if acc.2.2 then 0 else 1/20), false))
    ([], 0, true)).1

/- ### Episode status writes — `podcast_generator.generate_episode` and
`http_worker.generate_episode`

`agent/services/episode_service.py` is not in the source tree; its
`set_episode_status` is modelled from the spec (every transition writes the
new state plus an optional progress percentage and stage label, and on
failure an error string, to the episode row). The two workers and the
pipeline are in the tree, and the statuses below are exactly the string
literals they pass. -/

/-- One `set_episode_status`/`update_episode` status write. -/
structure StatusWrite where
  status : String
  stage : Option String
  progress : Option ℕ
  error : Option String
deriving DecidableEq, Repr

/-- The episode row fields that status writes touch. -/
structure EpisodeRow where
  status : String
  stage : Option String
  progress : Option ℕ
  error : Option String
deriving DecidableEq, Repr

/-- Modelled from the spec: `EpisodeService.set_episode_status` writes the new
status and any provided stage, progress and error onto the episode row,
leaving absent fields unchanged (`episode_service.py` is not in the tree). -/
def applyWrite (row : EpisodeRow) (w : StatusWrite) : EpisodeRow :=
  { status := w.status,
    stage := match w.stage with | some s => some s | none => row.stage,
    progress := match w.progress with | some p => some p | none => row.progress,
    error := match w.error with | some e => some e | none => row.error }

/-- Apply a sequence of status writes to an episode row. -/
def applyWrites (row : EpisodeRow) (ws : List StatusWrite) : EpisodeRow :=
  ws.foldl applyWrite row

/-- The seven in-progress stage writes of the pipeline, in program order with
their stage labels and progress percentages. -/
def stageWrites : List StatusWrite :=
  [⟨"discovering_articles", some "discovering_articles", some 10, none⟩,
   ⟨"extracting_content", some "extracting_content", some 20, none⟩,
   ⟨"generating_script", some "generating_script", some 40, none⟩,
   ⟨"generating_audio", some "generating_audio", some 60, none⟩,
   ⟨"generating_timestamps", some "generating_timestamps", some 80, none⟩,
   ⟨"uploading_files", some "uploading_files", some 90, none⟩,
   ⟨"finalizing", some "finalizing", some 95, none⟩]

/-- The two final writes of a successful run: `update_episode(status="completed")`
followed by `set_episode_status(..., "completed", stage="completed", progress=100)`. -/
def completedWrites : List StatusWrite :=
  [⟨"completed", none, none, none⟩, ⟨"completed", some "completed", some 100, none⟩]

/-- The `set_episode_status(episode_id, "failed", error=...)` write. -/
def failedWrite (msg : String) : StatusWrite := ⟨"failed", none, none, some msg⟩

/-- The error message raised when article selection comes back empty. -/
def noArticlesError : String :=
  "No new articles available for your selected topics. You\x27ve already heard all recent content! Try selecting different topics or check back tomorrow for fresh articles."

/-- Status writes of one `PodcastGenerator.generate_episode` run.
`articles` is the selection result; `failAfter = some (k, msg)` abstracts an
exception with text `msg` thrown by an external call after the `k`-th stage
write succeeded (`none`: every stage succeeds). The `except` clause writes
`failed` with the error text and re-raises. -/
def podcastGeneratorWrites (articles : List SelArticle)
    (failAfter : Option (ℕ × String)) : List StatusWrite :=
  if articles.isEmpty then
    stageWrites.take 1 ++ [failedWrite noArticlesError]
  else
    match failAfter with
    | none => stageWrites ++ completedWrites
    | some (k, msg) => stageWrites.take (k + 1) ++ [failedWrite msg]

/-- Whether the pipeline run raised. -/
def pipelineFailed (articles : List SelArticle) (failAfter : Option (ℕ × String)) : Bool :=
  articles.isEmpty || failAfter.isSome

/-- The `str(e)` text the HTTP worker catches when the pipeline raised. -/
def pipelineErrorText (articles : List SelArticle)
    (failAfter : Option (ℕ × String)) : String :=
  if articles.isEmpty then noArticlesError
  else match failAfter with
    | some (_, msg) => msg
    | none => ""

/-- Status writes of one `POST /generate` handling in `http_worker.py`: the
handler unconditionally writes `processing` (stage `started`, progress 0) —
without reading the episode row `row` — then runs the pipeline, and on a
pipeline exception writes `failed` once more with the same error text. -/
def httpGenerateWrites (_row : EpisodeRow) (articles : List SelArticle)
    (failAfter : Option (ℕ × String)) : List StatusWrite :=
  ⟨"processing", some "started", some 0, none⟩ :: podcastGeneratorWrites articles failAfter
    ++ (if pipelineFailed articles failAfter then
          [failedWrite (pipelineErrorText articles failAfter)] else [])

/-- The declared status set of the episode state machine (§4.7). -/
def declaredStatuses : List String :=
  ["pending", "discovering_articles", "extracting_content", "generating_script",
   "generating_audio", "generating_timestamps", "uploading_files", "finalizing",
   "completed", "failed"]

/-- Position of a status along the declared graph, with `processing` placed
between `pending` and `discovering_articles` and `failed` terminal. -/
def statusRank (s : String) : ℕ :=
  if s = "pending" then 0
  else if s = "processing" then 1
  else if s = "discovering_articles" then 2
  else if s = "extracting_content" then 3
  else if s = "generating_script" then 4
  else if s = "generating_audio" then 5
  else if s = "generating_timestamps" then 6
  else if s = "uploading_files" then 7
  else if s = "finalizing" then 8
  else if s = "completed" then 9
  else 10

/- ### Judge-reply parsing — `clustering_service._parse_ai_decision` -/

/-- Digits of a decimal numeral folded to a natural number (Python `int`). -/
def digitsToNat (cs : List Char) : ℕ := cs.foldl (fun n c => 10 * n + (c.toNat - 48)) 0

/-- The first maximal run of consecutive digits in a string — the regex
search for one or more digits applied by the parser. -/
def firstDigitRun (s : String) : Option (List Char) :=
  let run := (s.data.dropWhile (fun c => !c.isDigit)).takeWhile (fun c => c.isDigit)
  if run.isEmpty then none else some run

/-- Parsing of the `importance_score` field: absent keys are left absent;
present values are rendered with `str`, the first digit run is taken as an
integer, and a value without digits becomes 50. -/
def parseImportanceField (raw : Option String) : Option ℤ :=
  match raw with
  | none => none
  | some s =>
    match firstDigitRun s with
    | some run => some (digitsToNat run)
    | none => some 50

/-- The dict get of the parsed importance score, defaulting to 50, performed
by `_create_new_cluster`: the importance written to the new cluster row. -/
def clusterImportance (raw : Option String) : ℤ := (parseImportanceField raw).getD 50

/-- The closed subcategory taxonomy of `RSS_FEEDS_CONFIG`, in configuration
order. -/
def subcatTaxonomy : List (String × List String) :=
  [("World News",
    ["Africa", "Asia", "Europe", "Middle East", "North America", "South America", "Oceania"]),
   ("Politics & Government",
    ["US Politics", "International Politics", "Elections", "Policy & Legislation",
     "Government Affairs"]),
   ("Business",
    ["Markets", "Corporations & Earnings", "Startups & Entrepreneurship", "Economy and Policy"]),
   ("Technology",
    ["AI & Machine Learning", "Gadgets & Consumer Tech", "Software & Apps", "Cybersecurity",
     "Hardware & Infrastructure"]),
   ("Science & Environment",
    ["Space & Astronomy", "Biology", "Physics & Chemistry", "Research & Academia",
     "Climate & Weather", "Sustainability", "Conservation & Wildlife"]),
   ("Sports",
    ["Football (Soccer)", "American Football", "Basketball", "Baseball", "Cricket",
     "Tennis", "F1", "Boxing", "MMA", "Golf", "Ice hockey", "Rugby",
     "Volleyball", "Table Tennis (Ping Pong)", "Athletics"]),
   ("Arts & Culture",
    ["Celebrity News", "Gaming", "Film & TV", "Music", "Literature", "Art & Design", "Fashion"]),
   ("Health",
    ["Public Health", "Medicine & Healthcare", "Fitness & Wellness", "Mental Health"]),
   ("Lifestyle",
    ["Travel", "Food & Dining", "Home & Garden", "Relationships & Family", "Hobbies"])]

/-- The category whose configured subcategory list contains `sub`, searching
`RSS_FEEDS_CONFIG` in order. -/
def deriveCategory (sub : String) : Option String :=
  (subcatTaxonomy.find? (fun p => p.2.contains sub)).map (fun p => p.1)

/-- Category/subcategory pair the parsed decision ends up with: a known
subcategory maps to its configured category; an unknown subcategory keeps the
subcategory and defaults the category to General; an absent subcategory
defaults both. -/
def applyCategoryDerivation (sub : Option String) : String × Option String :=
  match sub with
  | some s =>
    match deriveCategory s with
    | some c => (c, some s)
    | none => ("General", some s)
  | none => ("General", none)

/- ### Topic grouping and script assembly — `adk_agents.py` -/

/-- `PodcastGenerationWorkflow.WORLD_NEWS_SUBCATEGORIES`. -/
def WORLD_NEWS_SUBCATEGORIES : List String :=
  ["Africa", "Asia", "Europe", "Middle East", "North America", "South America", "Oceania"]

/-- `_normalize_topic_name`: world-news regions fold to `"World News"`,
everything else is kept as-is. -/
def normalizeTopicName (s : String) : String :=
  if WORLD_NEWS_SUBCATEGORIES.contains s then "World News" else s

/-- The fields of a source dictionary that topic grouping reads. -/
structure ScriptSource where
  subcategory : Option String
  category : String
deriving DecidableEq, Repr

/-- The topic key of one source: its subcategory, normalized (a null
subcategory stays null, as in the Python). -/
def topicOf (src : ScriptSource) : Option String := src.subcategory.map normalizeTopicName

/-- Keys in order of first occurrence (Python dict insertion order). -/
def firstOccAux (seen : List (Option String)) : List (Option String) → List (Option String)
  | [] => []
  | a :: l =>
    if seen.contains a then firstOccAux seen l else a :: firstOccAux (a :: seen) l

/-- The keys of `topics_map` before sorting. -/
def topicKeys (sources : List ScriptSource) : List (Option String) :=
  firstOccAux [] (sources.map topicOf)

/-- The category of the first source of a topic, ZZZ when the topic has no
source (pushing unknowns to the end, as in `get_category_sort_key`). -/
def catOfTopic (sources : List ScriptSource) (t : Option String) : String :=
  match sources.find? (fun s => topicOf s == t) with
  | some s => s.category
  | none => "ZZZ"

/-- Comparison of two optional topic names (Lean string order standing in for
Python string comparison; null sorts first). -/
def optStrLE : Option String → Option String → Bool
  | none, _ => true
  | some _, none => false
  | some x, some y => decide (x ≤ y)

/-- The `(category, topic_name)` sort key comparison of `get_category_sort_key`. -/
def topicKeyLE (sources : List ScriptSource) (a b : Option String) : Bool :=
  decide (catOfTopic sources a < catOfTopic sources b)
    || (catOfTopic sources a == catOfTopic sources b && optStrLE a b)

/-- `sorted_topic_names`: the topic keys sorted by `(category, topic name)`
(Python `sorted` is stable; insertion sort with the same comparison agrees). -/
def sortedTopicKeys (sources : List ScriptSource) : List (Option String) :=
  List.insertionSort (fun a b => topicKeyLE sources a b = true) (topicKeys sources)

/-- Topic labels of the assembled script paragraphs, in order: the intro
paragraph, one paragraph per topic in sorted topic order, the outro paragraph. -/
def assembledTopicLabels (sources : List ScriptSource) : List (Option String) :=
  some "Introduction" :: sortedTopicKeys sources ++ [some "Outro"]

/-- All subcategory names appearing in the configuration. -/
def configuredSubcategories : List String := (subcatTaxonomy.map (fun p => p.2)).flatten

/-- A concrete eligible candidate row: a Sports/Tennis cluster of importance
50 with 3 articles, published one hour before query time. -/
def sampleSqlRow : SqlRow :=
  ⟨1, 50, 3, "Sports", some "Tennis", [], some 996400, 990000⟩

/-- The statuses a `POST /generate` handling writes, as a function of whether
selection came back empty and of the failing stage index (if any). -/
def runStatusList (noArts : Bool) (failK : Option ℕ) : List String :=
  "processing" ::
    (if noArts then ["discovering_articles", "failed", "failed"]
     else match failK with
       | none => (stageWrites.map StatusWrite.status) ++ ["completed", "completed"]
       | some k => (stageWrites.map StatusWrite.status).take (k + 1) ++ ["failed", "failed"])
/-- Two-paragraph script used in the C3 witness. -/
def sampleScript : List Para := [⟨"p0", [], "TopicA"⟩, ⟨"p1", [], "TopicB"⟩]

/-- Two non-framing chunks used in the C3 witness. -/
def sampleChunks : List TChunk :=
  [⟨0, "p0", [], some 10, "TopicA"⟩, ⟨1, "p1", [⟨"hi", 0, 5⟩], some 5, "TopicB"⟩]
/- ### Helper lemmas -/

theorem dropWhile_notDigit_append (pre l : List Char)
    (hpre : ∀ c ∈ pre, c.isDigit = false) :
    (pre ++ l).dropWhile (fun c => !c.isDigit) = l.dropWhile (fun c => !c.isDigit) := by
  induction pre with
  | nil => rfl
  | cons p ps ih =>
    have hp : p.isDigit = false := hpre p (List.mem_cons_self p ps)
    simp only [List.cons_append, List.dropWhile_cons, hp, Bool.not_false, if_true]
    exact ih (fun c hc => hpre c (List.mem_cons_of_mem p hc))

theorem takeWhile_digit_append (run l : List Char)
    (hdig : ∀ c ∈ run, c.isDigit = true)
    (hl : l.takeWhile (fun c => c.isDigit) = []) :
    (run ++ l).takeWhile (fun c => c.isDigit) = run := by
  induction run with
  | nil => simpa using hl
  | cons r rs ih =>
    have hr : r.isDigit = true := hdig r (List.mem_cons_self r rs)
    simp only [List.cons_append, List.takeWhile_cons, hr, if_true]
    rw [ih (fun c hc => hdig c (List.mem_cons_of_mem r hc))]

theorem dropWhile_notDigit_all (l : List Char) (h : ∀ c ∈ l, c.isDigit = false) :
    l.dropWhile (fun c => !c.isDigit) = [] := by
  induction l with
  | nil => rfl
  | cons c cs ih =>
    have hc : c.isDigit = false := h c (List.mem_cons_self c cs)
    simp only [List.dropWhile_cons, hc, Bool.not_false, if_true]
    exact ih (fun d hd => h d (List.mem_cons_of_mem c hd))

theorem find?_pairwise_combined_max {p : SelArticle → Bool} :
    ∀ {l : List SelArticle} {a : SelArticle}, l.Pairwise combGE → l.find? p = some a →
      ∀ b ∈ l, p b = true → b.combined ≤ a.combined := by
  intro l
  induction l with
  | nil => intro a _ hf; simp at hf
  | cons x t ih =>
    intro a hpw hf b hb hpb
    rcases List.pairwise_cons.mp hpw with ⟨hx, ht⟩
    by_cases hpx : p x
    · rw [List.find?_cons_of_pos _ hpx] at hf
      obtain rfl : x = a := Option.some.inj hf
      rcases List.mem_cons.mp hb with rfl | hbt
      · exact le_refl _
      · exact hx b hbt
    · rw [List.find?_cons_of_neg _ hpx] at hf
      rcases List.mem_cons.mp hb with rfl | hbt
      · exact absurd hpb hpx
      · exact ih ht hf b hbt hpb

theorem mem_subcatGroup {eligible : List SelArticle} {s : String} {a : SelArticle} :
    a ∈ subcatGroup eligible s ↔ a ∈ eligible ∧ a.subcategory = some s := by
  unfold subcatGroup sortByCombinedDesc
  rw [(List.perm_insertionSort combGE _).mem_iff, List.mem_filter]
  simp

theorem sorted_subcatGroup (eligible : List SelArticle) (s : String) :
    (subcatGroup eligible s).Pairwise combGE :=
  List.sorted_insertionSort combGE _

theorem mem_firstOccAux {x : Option String} :
    ∀ (seen l : List (Option String)), x ∈ firstOccAux seen l → x ∈ l := by
  intro seen l
  induction l generalizing seen with
  | nil => intro h; simp [firstOccAux] at h
  | cons a t ih =>
    intro h
    unfold firstOccAux at h
    by_cases hs : seen.contains a
    · rw [if_pos hs] at h
      exact List.mem_cons_of_mem a (ih seen h)
    · rw [if_neg hs] at h
      rcases List.mem_cons.mp h with rfl | h2
      · exact List.mem_cons_self _ _
      · exact List.mem_cons_of_mem a (ih (a :: seen) h2)

/- ### C1 -/

/-- C1: for every candidate article passing the eligibility filter of the query
(publication timestamp, or created-at when publication is absent, within the
last 5 days, and cluster importance at least the minimum threshold), the
`combined_score` column computed by the selector equals
`(importance + 17 * log(max(article_count, 1))) * exp(-age_hours * decay_rate[category])`
with the fixed per-category decay table of the claim and `age_hours` taken
from `publication_timestamp` or `created_at` at query time. -/
theorem combinedScore_matches_claim (selSubs customTags : List String)
    (minImp now : ℚ) (r : SqlRow)
    (_h : eligibleRow selSubs customTags minImp (freshnessCutoff now) r = true) :
    sqlCombinedScore r now
      = claimCombinedScore r.importance r.articleCount (ageHours r now) r.category := rfl



/-- Witness for C1 at `sampleSqlRow`, query time 1000000. -/
theorem combinedScore_matches_claim_witness :
    eligibleRow ["Tennis"] [] 40 (freshnessCutoff 1000000) sampleSqlRow = true ∧
    sqlCombinedScore sampleSqlRow 1000000
      = claimCombinedScore sampleSqlRow.importance sampleSqlRow.articleCount
          (ageHours sampleSqlRow 1000000) sampleSqlRow.category :=
  ⟨by norm_num [eligibleRow, freshnessCutoff, effectiveTs, sampleSqlRow, ARTICLE_FRESHNESS_DAYS],
   combinedScore_matches_claim ["Tennis"] [] 40 1000000 sampleSqlRow
     (by norm_num [eligibleRow, freshnessCutoff, effectiveTs, sampleSqlRow,
                   ARTICLE_FRESHNESS_DAYS])⟩

/- ### C6 -/

/-- C6 as stated is false: a well-formed importance of 58.8 is not retained.
The parser extracts the first digit run of the rendered value, so the decision
used to create the cluster row carries 58, a changed value. -/
theorem importance_float_truncated_cex :
    clusterImportance (some "58.8") = 58 ∧ ((58 : ℚ) ≠ 588/10) :=
  ⟨by decide, by norm_num⟩

/-- C6 amended: a missing importance score, or one whose rendering contains no
digit, is substituted with 50; any other value is reduced to its first run of
digits read as an integer (so a one-decimal float such as 58.8 is stored as 58,
not retained unchanged). -/
theorem importance_digit_run_parse (pre run post : List Char)
    (hpre : ∀ c ∈ pre, c.isDigit = false)
    (hrun : run ≠ []) (hdig : ∀ c ∈ run, c.isDigit = true)
    (hpost : ∀ c ∈ post.take 1, c.isDigit = false) :
    clusterImportance (some ⟨pre ++ run ++ post⟩) = digitsToNat run ∧
    clusterImportance none = 50 ∧
    (∀ s : String, (∀ c ∈ s.data, c.isDigit = false) → clusterImportance (some s) = 50) := by
  refine ⟨?_, rfl, ?_⟩
  · have hdrop : ((pre ++ run ++ post).dropWhile (fun c => !c.isDigit)) = run ++ post := by
      rw [List.append_assoc, dropWhile_notDigit_append pre (run ++ post) hpre]
      cases run with
      | nil => exact absurd rfl hrun
      | cons r rs =>
        have hr : r.isDigit = true := hdig r (List.mem_cons_self r rs)
        simp [List.dropWhile_cons, hr]
    have htake : ((run ++ post).takeWhile (fun c => c.isDigit)) = run := by
      apply takeWhile_digit_append run post hdig
      cases post with
      | nil => rfl
      | cons p ps =>
        have hp : p.isDigit = false := hpost p (by simp)
        simp [List.takeWhile_cons, hp]
    unfold clusterImportance parseImportanceField firstDigitRun
    simp only [hdrop, htake]
    rw [if_neg (by simpa [List.isEmpty_iff] using hrun)]
    rfl
  · intro s hs
    have hdrop : (s.data.dropWhile (fun c => !c.isDigit)) = [] :=
      dropWhile_notDigit_all s.data hs
    unfold clusterImportance parseImportanceField firstDigitRun
    simp [hdrop]

/-- Witness for C6 at the value 58.8: the cluster row gets 58. -/
theorem importance_digit_run_parse_witness :
    clusterImportance (some ⟨[] ++ ['5', '8'] ++ ['.', '8']⟩) = digitsToNat ['5', '8'] ∧
    clusterImportance none = 50 :=
  ⟨(importance_digit_run_parse [] ['5', '8'] ['.', '8']
      (by decide) (by decide) (by decide) (by decide)).1,
   (importance_digit_run_parse [] ['5', '8'] ['.', '8']
      (by decide) (by decide) (by decide) (by decide)).2.1⟩

/- ### C7 -/

/-- C7 as stated is false: when the judge names a subcategory outside the
closed taxonomy, the parsed decision keeps that subcategory (only the category
defaults to General); the subcategory is not set to null. -/
theorem unknown_subcategory_retained_cex :
    applyCategoryDerivation (some "Breaking News") = ("General", some "Breaking News") ∧
    (some "Breaking News" : Option String) ≠ none := by decide

/-- C7 amended: a subcategory found in the fixed taxonomy table maps to its
configured category and is retained; an unknown subcategory yields category
General with the subcategory retained unchanged; subcategory is null only when
the judge supplied none, in which case category is General as well. -/
theorem category_derivation_spec (s : String) :
    ((∀ p ∈ subcatTaxonomy, s ∉ p.2) →
      applyCategoryDerivation (some s) = ("General", some s)) ∧
    (∀ c, deriveCategory s = some c → applyCategoryDerivation (some s) = (c, some s)) ∧
    applyCategoryDerivation none = ("General", none) := by
  refine ⟨?_, ?_, rfl⟩
  · intro h
    have hfind : subcatTaxonomy.find? (fun p => p.2.contains s) = none := by
      rw [List.find?_eq_none]
      intro p hp
      simpa using h p hp
    show (match (subcatTaxonomy.find? (fun p => p.2.contains s)).map (fun p => p.1) with
      | some c => (c, some s)
      | none => ("General", some s)) = ("General", some s)
    rw [hfind]
    rfl
  · intro c hc
    simp [applyCategoryDerivation, hc]

/-- Witness for C7: Tennis derives Sports and is retained; a null subcategory
defaults to General/null. -/
theorem category_derivation_spec_witness :
    applyCategoryDerivation (some "Tennis") = ("Sports", some "Tennis") ∧
    applyCategoryDerivation none = ("General", none) :=
  ⟨(category_derivation_spec "Tennis").2.1 "Sports" (by decide),
   (category_derivation_spec "Tennis").2.2⟩

/- ### C2 -/

/-- C2 as stated is false: after Phase 1 has already chosen a Tennis article
through the custom tag "Jensen Huang", the requested subcategory Tennis is
represented, yet Phase 2a still adds a further Tennis candidate from an
unselected cluster. -/
theorem phase2a_representation_cex :
    let A : SelArticle := ⟨1, 1, some "Tennis", ["Jensen Huang"], 50, 10⟩
    let B : SelArticle := ⟨2, 2, some "Tennis", [], 60, 5⟩
    let st1 := ["Jensen Huang"].foldl (phase1TagStep [A, B]) ⟨[], []⟩
    st1 = ⟨[A], [1]⟩ ∧
    (st1.chosen.any (fun a => a.subcategory == some "Tennis")) = true ∧
    phase2aStep [A, B] st1 "Tennis" = ⟨[A, B], [1, 2]⟩ := by decide

/-- C2 amended: in Phase 2a, for every requested non-world-news subcategory
the step adds the highest-combined-score candidate of that subcategory whose
cluster is not yet selected, whether or not the subcategory already has an
article chosen in earlier phases; when every candidate of the subcategory
belongs to an already-selected cluster (or there is none), nothing is added. -/
theorem phase2aStep_adds_best_unselected (eligible : List SelArticle) (st : SelSt)
    (s : String) :
    ((subcatGroup eligible s).find? (fun a => !(st.selectedClusters.contains a.clusterId))
        = none → phase2aStep eligible st s = st) ∧
    (∀ a, (subcatGroup eligible s).find? (fun a => !(st.selectedClusters.contains a.clusterId))
        = some a →
      phase2aStep eligible st s = selAdd st a ∧
      a ∈ eligible ∧ a.subcategory = some s ∧
      st.selectedClusters.contains a.clusterId = false ∧
      (∀ b ∈ subcatGroup eligible s, st.selectedClusters.contains b.clusterId = false →
        b.combined ≤ a.combined)) := by
  constructor
  · intro hnone
    unfold phase2aStep
    split
    · rfl
    · rw [hnone]
  · intro a hfind
    have hmem : a ∈ subcatGroup eligible s := List.mem_of_find?_eq_some hfind
    have hma := mem_subcatGroup.mp hmem
    have hne : (eligible.filter (fun a => a.subcategory == some s)).isEmpty = false := by
      have hm : a ∈ eligible.filter (fun a => a.subcategory == some s) := by
        rw [List.mem_filter]
        exact ⟨hma.1, by simp [hma.2]⟩
      rcases hfe : eligible.filter (fun a => a.subcategory == some s) with _ | ⟨x, t⟩
      · exact absurd hfe (List.ne_nil_of_mem hm)
      · rw [hfe]
        rfl
    have hp := List.find?_some hfind
    refine ⟨?_, hma.1, hma.2, by simpa using hp, ?_⟩
    · unfold phase2aStep
      rw [if_neg (by simp [hne]), hfind]
    · intro b hb hbsel
      exact find?_pairwise_combined_max (sorted_subcatGroup eligible s) hfind b hb
        (by simpa using hbsel)

/-- Witness for C2 at a one-article Tennis pool and the empty selection state. -/
theorem phase2aStep_adds_best_unselected_witness :
    phase2aStep [⟨1, 1, some "Tennis", [], 50, 10⟩] ⟨[], []⟩ "Tennis"
        = selAdd ⟨[], []⟩ ⟨1, 1, some "Tennis", [], 50, 10⟩ ∧
    (⟨1, 1, some "Tennis", [], 50, 10⟩ : SelArticle).subcategory = some "Tennis" := by
  have h := (phase2aStep_adds_best_unselected [⟨1, 1, some "Tennis", [], 50, 10⟩]
      ⟨[], []⟩ "Tennis").2 ⟨1, 1, some "Tennis", [], 50, 10⟩ (by decide)
  exact ⟨h.1, h.2.2.1⟩

/- ### C10 -/

/-- C10: the selector can return more than the requested number of articles.
With nine custom tags matching nine distinct unheard clusters and
`total_articles = 8` (the value the pipeline passes), Phase 1 adds one
candidate per tag without checking the running total, Phase 2b adds nothing,
and the returned list has nine articles. -/
theorem selection_can_exceed_total :
    (getArticlesBySubcategories
      [⟨1, 1, none, ["t1"], 50, 9⟩, ⟨2, 2, none, ["t2"], 50, 8⟩,
       ⟨3, 3, none, ["t3"], 50, 7⟩, ⟨4, 4, none, ["t4"], 50, 6⟩,
       ⟨5, 5, none, ["t5"], 50, 5⟩, ⟨6, 6, none, ["t6"], 50, 4⟩,
       ⟨7, 7, none, ["t7"], 50, 3⟩, ⟨8, 8, none, ["t8"], 50, 2⟩,
       ⟨9, 9, none, ["t9"], 50, 1⟩]
      [] ["t1", "t2", "t3", "t4", "t5", "t6", "t7", "t8", "t9"] 8).length = 9 ∧
    8 < 9 := by decide

/- ### C4 -/

/-- C4 as stated is false: re-delivering a request for an episode whose row is
in the terminal state `failed` is not a no-op — the handler performs status
writes, re-runs the stages (a `generating_script` write occurs), and moves the
row out of its terminal state to `completed`. -/
theorem redelivery_terminal_rerun_cex :
    let row : EpisodeRow := ⟨"failed", none, none, some "earlier failure"⟩
    let articles : List SelArticle := [⟨1, 1, none, [], 50, 10⟩]
    httpGenerateWrites row articles none ≠ [] ∧
    "generating_script" ∈ (httpGenerateWrites row articles none).map StatusWrite.status ∧
    (applyWrites row (httpGenerateWrites row articles none)).status = "completed" := by decide

/-- C4 amended: the builder performs no check of the state of the episode
row — the status writes of a `POST /generate` handling are the same whatever
the prior state of the row, terminal or not; every handling restarts by writing
`processing`. -/
theorem redelivery_state_independent (row other : EpisodeRow)
    (articles : List SelArticle) (failAfter : Option (ℕ × String)) :
    httpGenerateWrites row articles failAfter = httpGenerateWrites other articles failAfter ∧
    (httpGenerateWrites row articles failAfter).head?
      = some ⟨"processing", some "started", some 0, none⟩ :=
  ⟨rfl, rfl⟩

/-- Witness for C4: a completed row and a fresh pending row receive identical
write sequences. -/
theorem redelivery_state_independent_witness :
    httpGenerateWrites ⟨"completed", none, none, none⟩ [⟨1, 1, none, [], 50, 10⟩] none
      = httpGenerateWrites ⟨"pending", none, none, none⟩ [⟨1, 1, none, [], 50, 10⟩] none ∧
    (httpGenerateWrites ⟨"completed", none, none, none⟩ [⟨1, 1, none, [], 50, 10⟩] none).head?
      = some ⟨"processing", some "started", some 0, none⟩ :=
  redelivery_state_independent ⟨"completed", none, none, none⟩ ⟨"pending", none, none, none⟩
    [⟨1, 1, none, [], 50, 10⟩] none

/- ### C5 -/

/-- C5 as stated is false: every run writes the status `processing`, which is
not in the declared status set of the episode state machine. -/
theorem processing_status_undeclared_cex :
    "processing" ∈ (httpGenerateWrites ⟨"pending", none, none, none⟩
        [⟨1, 1, none, [], 50, 10⟩] none).map StatusWrite.status ∧
    "processing" ∉ declaredStatuses := by decide



theorem httpWrites_statuses_eq (row : EpisodeRow) (articles : List SelArticle)
    (failAfter : Option (ℕ × String)) :
    (httpGenerateWrites row articles failAfter).map StatusWrite.status
      = runStatusList articles.isEmpty (failAfter.map Prod.fst) := by
  by_cases hA : articles.isEmpty
  · simp [httpGenerateWrites, podcastGeneratorWrites, pipelineFailed, hA,
      runStatusList, stageWrites, failedWrite]
  · rcases failAfter with _ | ⟨k, msg⟩
    · simp [httpGenerateWrites, podcastGeneratorWrites, pipelineFailed, hA,
        runStatusList, stageWrites, completedWrites, failedWrite]
    · simp [httpGenerateWrites, podcastGeneratorWrites, pipelineFailed, hA,
        runStatusList, stageWrites, failedWrite]

theorem runStatusList_props (noArts : Bool) (failK : Option ℕ) :
    (∀ s ∈ runStatusList noArts failK, s ∈ declaredStatuses ∨ s = "processing") ∧
    (runStatusList noArts failK).Chain' (fun a b => statusRank a ≤ statusRank b) := by
  cases noArts
  · rcases failK with _ | k
    · simp [runStatusList, declaredStatuses, statusRank, stageWrites]
    · match k with
      | 0 => simp [runStatusList, declaredStatuses, statusRank, stageWrites]
      | 1 => simp [runStatusList, declaredStatuses, statusRank, stageWrites]
      | 2 => simp [runStatusList, declaredStatuses, statusRank, stageWrites]
      | 3 => simp [runStatusList, declaredStatuses, statusRank, stageWrites]
      | 4 => simp [runStatusList, declaredStatuses, statusRank, stageWrites]
      | 5 => simp [runStatusList, declaredStatuses, statusRank, stageWrites]
      | 6 => simp [runStatusList, declaredStatuses, statusRank, stageWrites]
      | n + 7 =>
        have htake : (List.take (n + 7 + 1) (stageWrites.map StatusWrite.status))
            = stageWrites.map StatusWrite.status :=
          List.take_of_length_le (by simp [stageWrites])
        simp only [runStatusList]
        rw [htake]
        simp [declaredStatuses, statusRank, stageWrites]
  · simp [runStatusList, declaredStatuses, statusRank]

/-- C5 amended: along every run, apart from the extra `processing` write (made
by the worker before the pipeline starts, outside the declared set), every
status written belongs to the declared set, and the written sequence is
monotone along the declared graph — it never moves backwards, with `failed`
terminal and reachable from any point. -/
theorem status_writes_monotone (row : EpisodeRow) (articles : List SelArticle)
    (failAfter : Option (ℕ × String)) :
    (∀ s ∈ (httpGenerateWrites row articles failAfter).map StatusWrite.status,
      s ∈ declaredStatuses ∨ s = "processing") ∧
    ((httpGenerateWrites row articles failAfter).map StatusWrite.status).Chain'
      (fun a b => statusRank a ≤ statusRank b) := by
  rw [httpWrites_statuses_eq]
  exact runStatusList_props articles.isEmpty (failAfter.map Prod.fst)

/-- Witness for C5: the amended statement instantiated at a successful run on
a pending row, specialised to the status `completed`. -/
theorem status_writes_monotone_witness :
    ("completed" ∈ declaredStatuses ∨ "completed" = "processing") ∧
    ((httpGenerateWrites ⟨"pending", none, none, none⟩ [⟨1, 1, none, [], 50, 10⟩] none).map
        StatusWrite.status).Chain' (fun a b => statusRank a ≤ statusRank b) :=
  ⟨(status_writes_monotone ⟨"pending", none, none, none⟩ [⟨1, 1, none, [], 50, 10⟩] none).1
      "completed" (by decide),
   (status_writes_monotone ⟨"pending", none, none, none⟩ [⟨1, 1, none, [], 50, 10⟩] none).2⟩

/- ### C8 -/

/-- C8: whenever article selection returns an empty set, the run writes only
`processing`, `discovering_articles` and `failed` — no script, audio or upload
stage runs — the episode row ends in status `failed`, and the error recorded
on the row is the no-new-articles message, which contains the phrase
"no new articles" (up to letter case: the message capitalises it as
"No new articles ..."). -/
theorem empty_selection_fails_with_message (eligible : List SelArticle)
    (selSubs customTags : List String) (total : ℕ) (row : EpisodeRow)
    (failAfter : Option (ℕ × String))
    (h : getArticlesBySubcategories eligible selSubs customTags total = []) :
    (httpGenerateWrites row (getArticlesBySubcategories eligible selSubs customTags total)
        failAfter).map StatusWrite.status
      = ["processing", "discovering_articles", "failed", "failed"] ∧
    (applyWrites row (httpGenerateWrites row
        (getArticlesBySubcategories eligible selSubs customTags total) failAfter)).status
      = "failed" ∧
    (applyWrites row (httpGenerateWrites row
        (getArticlesBySubcategories eligible selSubs customTags total) failAfter)).error
      = some noArticlesError ∧
    containsPhraseCI noArticlesError "no new articles" = true := by
  rw [h]
  exact ⟨rfl, rfl, rfl, by decide⟩

/-- Witness for C8: an empty candidate pool makes selection empty, and the
conclusions hold on a pending row. -/
theorem empty_selection_fails_with_message_witness :
    (httpGenerateWrites ⟨"pending", none, none, none⟩
        (getArticlesBySubcategories [] ["Tennis"] [] 8) none).map StatusWrite.status
      = ["processing", "discovering_articles", "failed", "failed"] ∧
    (applyWrites ⟨"pending", none, none, none⟩ (httpGenerateWrites ⟨"pending", none, none, none⟩
        (getArticlesBySubcategories [] ["Tennis"] [] 8) none)).status = "failed" ∧
    (applyWrites ⟨"pending", none, none, none⟩ (httpGenerateWrites ⟨"pending", none, none, none⟩
        (getArticlesBySubcategories [] ["Tennis"] [] 8) none)).error = some noArticlesError ∧
    containsPhraseCI noArticlesError "no new articles" = true :=
  empty_selection_fails_with_message [] ["Tennis"] [] 8 ⟨"pending", none, none, none⟩ none rfl

/- ### C9 -/

/-- C9 as stated is false: a selected source whose subcategory is not in the
configured taxonomy (here "General", which the clustering fallback can assign
and which tag-based selection can pick) yields a script paragraph whose topic
label is neither Introduction, Outro, World News, nor a configured
subcategory. -/
theorem topic_label_unconfigured_cex :
    some "General" ∈ assembledTopicLabels [⟨some "General", "General"⟩] ∧
    ¬((some "General" : Option String) = some "Introduction" ∨
      (some "General" : Option String) = some "Outro" ∨
      (some "General" : Option String) = some "World News" ∨
      ∃ c ∈ configuredSubcategories, (some "General" : Option String) = some c) := by decide

/-- C9 amended: when every selected source carries a subcategory from the
configured taxonomy, every paragraph topic label of the assembled script is
exactly Introduction, Outro, World News (the fold of the world-news regions),
or one of the configured subcategory names; in general a non-framing label is
the normalized subcategory of some selected source, configured or not. -/
theorem topic_labels_of_configured_sources (sources : List ScriptSource)
    (h : ∀ src ∈ sources, ∃ c, src.subcategory = some c ∧ c ∈ configuredSubcategories) :
    ∀ t ∈ assembledTopicLabels sources,
      t = some "Introduction" ∨ t = some "Outro" ∨ t = some "World News" ∨
      ∃ c ∈ configuredSubcategories, t = some c := by
  intro t ht
  unfold assembledTopicLabels at ht
  rcases List.mem_cons.mp ht with rfl | ht2
  · exact Or.inl rfl
  rcases List.mem_append.mp ht2 with hts | hout
  · have htk : t ∈ topicKeys sources := by
      have hperm := List.perm_insertionSort
        (fun a b => topicKeyLE sources a b = true) (topicKeys sources)
      exact hperm.mem_iff.mp hts
    have hmap : t ∈ sources.map topicOf := mem_firstOccAux [] (sources.map topicOf) htk
    rcases List.mem_map.mp hmap with ⟨src, hsrc, rfl⟩
    rcases h src hsrc with ⟨c, hsub, hc⟩
    unfold topicOf
    rw [hsub]
    by_cases hw : c ∈ WORLD_NEWS_SUBCATEGORIES
    · refine Or.inr (Or.inr (Or.inl ?_))
      simp [normalizeTopicName, hw]
    · refine Or.inr (Or.inr (Or.inr ⟨c, hc, ?_⟩))
      simp [normalizeTopicName, hw]
  · rcases List.mem_singleton.mp hout with rfl
    exact Or.inr (Or.inl rfl)

/-- Witness for C9 on a single configured Tennis source: the Tennis topic
label is accounted for. -/
theorem topic_labels_of_configured_sources_witness :
    (some "Tennis" : Option String) = some "Introduction" ∨
    (some "Tennis" : Option String) = some "Outro" ∨
    (some "Tennis" : Option String) = some "World News" ∨
    ∃ c ∈ configuredSubcategories, (some "Tennis" : Option String) = some c :=
  topic_labels_of_configured_sources [⟨some "Tennis", "Sports"⟩]
    (by
      intro src hsrc
      rcases List.mem_singleton.mp hsrc with rfl
      exact ⟨"Tennis", rfl, by decide⟩)
    (some "Tennis") (by decide)

/- ### C3 -/

theorem createSegments_cons_framing (script : List Para) (c : TChunk) (rest : List TChunk)
    (t : ℚ) (hf : isFraming c.topic = true) :
    createSegmentsFromTTS script (c :: rest) t
      = createSegmentsFromTTS script rest (t + chunkAdvance c) := by
  rcases hw : c.words with _ | ⟨w, ws⟩
  · simp [createSegmentsFromTTS, chunkAdvance, hf, hw, add_assoc]
  · simp [createSegmentsFromTTS, chunkAdvance, hf, hw, add_assoc]

theorem createSegments_cons_nonframing (script : List Para) (c : TChunk) (rest : List TChunk)
    (t : ℚ) (hf : isFraming c.topic = false) :
    createSegmentsFromTTS script (c :: rest) t
      = segOfChunkAt script t c :: createSegmentsFromTTS script rest (t + chunkAdvance c) := by
  rcases hw : c.words with _ | ⟨w, ws⟩
  · simp [createSegmentsFromTTS, chunkAdvance, segOfChunkAt, hf, hw, add_assoc]
  · simp [createSegmentsFromTTS, chunkAdvance, segOfChunkAt, hf, hw, add_assoc]

theorem createSegments_eq_offsets (script : List Para) :
    ∀ (cs : List TChunk) (t : ℚ),
      createSegmentsFromTTS script cs t =
        ((offsetsFrom t cs).filter (fun p => !(isFraming p.2.topic))).map
          (fun p => segOfChunkAt script p.1 p.2) := by
  intro cs
  induction cs with
  | nil => intro t; rfl
  | cons c rest ih =>
    intro t
    rw [offsetsFrom]
    by_cases hf : isFraming c.topic
    · rw [createSegments_cons_framing script c rest t hf, ih]
      simp [List.filter_cons, hf]
    · rw [createSegments_cons_nonframing script c rest t
        (by simpa using hf), ih]
      simp [List.filter_cons, hf]

theorem offsetsFrom_getElem? :
    ∀ (cs : List TChunk) (t : ℚ) (k : ℕ) (c : TChunk), cs[k]? = some c →
      (offsetsFrom t cs)[k]? = some (t + ((cs.take k).map chunkAdvance).sum, c) := by
  intro cs
  induction cs with
  | nil => intro t k c h; simp at h
  | cons c0 rest ih =>
    intro t k c h
    cases k with
    | zero =>
      simp only [List.getElem?_cons_zero, Option.some.injEq] at h
      subst h
      simp [offsetsFrom]
    | succ k =>
      simp only [List.getElem?_cons_succ] at h
      rw [offsetsFrom]
      simp only [List.getElem?_cons_succ]
      rw [ih (t + chunkAdvance c0) k c h]
      simp [add_assoc]

/-- C3 as stated is false on the code: with two non-framing chunks, the first
of duration 10 s, the segment of the second chunk starts at 10 s — the transcript
clock advances by the full chunk length (plus 250 ms after word-timed
chunks), not by the sum of durations minus 50 ms per boundary, which would
give 9.95 s. -/
theorem transcript_crossfade_offset_cex :
    let script : List Para := [⟨"p0", [], "TopicA"⟩, ⟨"p1", [], "TopicB"⟩]
    let c0 : TChunk := ⟨0, "p0", [], some 10, "TopicA"⟩
    let c1 : TChunk := ⟨1, "p1", [⟨"hi", 0, 5⟩], some 5, "TopicB"⟩
    (createSegmentsFromTTS script [c0, c1] 0).map TSeg.start = [0, 10] ∧
    claimedCrossfadeOffset [c0, c1] 1 = 199/20 ∧ ((10 : ℚ) ≠ 199/20) := by
  refine ⟨?_, ?_, by norm_num⟩
  · simp [createSegmentsFromTTS, chunkDuration, isFraming, sourceIdsAt]
  · simp [claimedCrossfadeOffset, chunkDuration]
    norm_num

/-- C3 amended: each non-framing chunk yields exactly one segment, placed at
its cumulative clock offset (plus the per-word times of the provider when present),
and intro/outro chunks advance the clock without producing a segment; but the
offset of chunk k is the sum of the clock advances of chunks 0..k-1, where a
chunk advances the clock by its last word end plus 250 ms when it has word
timestamps, by its duration plus 250 ms when it is a framing chunk without
word timestamps, and by its bare duration otherwise — not by the sum of
durations minus 50 ms per boundary. -/
theorem transcript_segments_spec (script : List Para) (cs : List TChunk) :
    createSegmentsFromTTS script cs 0 =
      ((offsetsFrom 0 cs).filter (fun p => !(isFraming p.2.topic))).map
        (fun p => segOfChunkAt script p.1 p.2) ∧
    (∀ (k : ℕ) (c : TChunk), cs[k]? = some c →
      (offsetsFrom 0 cs)[k]? = some (((cs.take k).map chunkAdvance).sum, c)) :=
  ⟨createSegments_eq_offsets script cs 0,
   fun k c h => by
    rw [offsetsFrom_getElem? cs 0 k c h, zero_add]⟩



/-- Witness for C3 at `sampleChunks`, reading off the offset pair of chunk 1. -/
theorem transcript_segments_spec_witness :
    createSegmentsFromTTS sampleScript sampleChunks 0 =
      ((offsetsFrom 0 sampleChunks).filter (fun p => !(isFraming p.2.topic))).map
        (fun p => segOfChunkAt sampleScript p.1 p.2) ∧
    (offsetsFrom 0 sampleChunks)[1]?
      = some (((sampleChunks.take 1).map chunkAdvance).sum,
          ⟨1, "p1", [⟨"hi", 0, 5⟩], some 5, "TopicB"⟩) :=
  ⟨(transcript_segments_spec sampleScript sampleChunks).1,
   (transcript_segments_spec sampleScript sampleChunks).2 1
     ⟨1, "p1", [⟨"hi", 0, 5⟩], some 5, "TopicB"⟩ rfl⟩
